import Mathlib

/-!
Verification development for the WebGPU BFS benchmarking harness
(`profiler.py`).  The definitions below are a shallow embedding of the
host-side control flow of the harness: the ping-pong iteration scheduler,
the timestamp-query instrumentation and resolve layout, the tick-to-time
analysis, the resource provisioning (distance-field seeding) and the
variant dispatch loop.  Device behaviour (the compute kernel itself) is
outside the embedding; what is modelled is exactly what the host records,
submits, reads back and reports.
-/

namespace BfsProfiler

/-! ## Global configuration (module-level constants of profiler.py) -/

def GRID_SIZE : Nat := 2048

def INNER_ITERATIONS : Nat := 1000

def GOAL : Nat × Nat := (GRID_SIZE - 3, GRID_SIZE - 3)

def NUM_CELLS : Nat := GRID_SIZE * GRID_SIZE

def GOAL_INDEX : Nat := GOAL.2 * GRID_SIZE + GOAL.1

/-- Dispatch grid width: `(GRID_SIZE + 7) // 8`. -/
def DISPATCH_X : Nat := (GRID_SIZE + 7) / 8

/-- Dispatch grid height: `(GRID_SIZE + 7) // 8`. -/
def DISPATCH_Y : Nat := (GRID_SIZE + 7) / 8

/-! ## Resources and bind groups -/

/-- The two distance-field resources of a run (buffer or texture form). -/
inductive Resource
  | ping
  | pong
deriving DecidableEq, Repr

/-- The two precomputed bind groups.  `bind_group_ping` is the binding set
the spec calls BindingsA (binding 1 reads ping, binding 2 writes pong);
`bind_group_pong` is BindingsB (reads pong, writes ping). -/
inductive BindGroup
  | bind_group_ping
  | bind_group_pong
deriving DecidableEq, Repr

/-- The (distance-in, distance-out) slots of each bind group, from the
`create_bind_group` entries at bindings 1 and 2 (profiler.py lines
359-376 and 510-527). -/
def bindGroupSlots : BindGroup → Resource × Resource
  | .bind_group_ping => (.ping, .pong)
  | .bind_group_pong => (.pong, .ping)

/-- The begin-of-pass / end-of-pass query indices attached to one compute
pass descriptor (the `timestamp_writes` dict). -/
structure TimestampWrites where
  beginning_of_pass_write_index : Nat
  end_of_pass_write_index : Nat
deriving DecidableEq, Repr

/-- One recorded compute pass: its optional timestamp instrumentation, the
bind group it sets, and its dispatch size. -/
structure ComputePassRecord where
  timestamp_writes : Option TimestampWrites
  bind_group : BindGroup
  dispatch_x : Nat
  dispatch_y : Nat
deriving DecidableEq, Repr

/-- One `resolve_query_set(query_set, firstQuery, queryCount, resolve_buffer,
destinationOffset)` call. -/
structure ResolveOp where
  first_query : Nat
  query_count : Nat
  destination_offset : Nat
deriving DecidableEq, Repr

/-- Host-visible events of a run, in program order. -/
inductive Event
  | createBindGroup (bg : BindGroup)
  | computePass (p : ComputePassRecord)
  | resolveQuery (r : ResolveOp)
  | submit
  | waitDone
  | copyResolveToRead (size : Nat)
  | mapRead
  | unmapRead
  | printMsg (s : String)
  | readback (r : Resource)
deriving DecidableEq, Repr

/-! ## The recording loop (`for step in range(iterations)`) -/

/-- Loop state of `run_bfs_variant`: the `read_from_ping` toggle, the
`last_output` tracking variable, and the passes recorded so far. -/
structure BfsLoopState where
  read_from_ping : Bool
  last_output : Resource
  passes : List ComputePassRecord
deriving DecidableEq, Repr

/-- One iteration of the recording loop of `run_bfs_variant` (lines
407-428): build the optional timestamp descriptor for query indices
`2*step` and `2*step+1`, record a pass with the bind group selected by
`read_from_ping`, update `last_output`, toggle `read_from_ping`. -/
def bfsLoopStep (can_timestamp : Bool) (st : BfsLoopState) (step : Nat) :
    BfsLoopState :=
  let tw : Option TimestampWrites :=
    if can_timestamp then some ⟨2 * step, 2 * step + 1⟩ else none
  let pass : ComputePassRecord :=
    { timestamp_writes := tw
      bind_group := if st.read_from_ping then .bind_group_ping else .bind_group_pong
      dispatch_x := DISPATCH_X
      dispatch_y := DISPATCH_Y }
  { read_from_ping := !st.read_from_ping
    last_output := if st.read_from_ping then .pong else .ping
    passes := st.passes ++ [pass] }

/-- The whole recording loop of `run_bfs_variant`, starting from
`read_from_ping = True`, `last_output = distance_buffer_ping`. -/
def bfsLoop (can_timestamp : Bool) (iterations : Nat) : BfsLoopState :=
  (List.range iterations).foldl (bfsLoopStep can_timestamp)
    ⟨true, .ping, []⟩

/-- Loop state of `run_bfs_tex_variant`: only `read_from_ping` and the
recorded passes (the texture runner keeps no `last_output` variable). -/
structure TexLoopState where
  read_from_ping : Bool
  passes : List ComputePassRecord
deriving DecidableEq, Repr

/-- One iteration of the recording loop of `run_bfs_tex_variant`
(lines 555-575). -/
def texLoopStep (can_timestamp : Bool) (st : TexLoopState) (step : Nat) :
    TexLoopState :=
  let tw : Option TimestampWrites :=
    if can_timestamp then some ⟨2 * step, 2 * step + 1⟩ else none
  let pass : ComputePassRecord :=
    { timestamp_writes := tw
      bind_group := if st.read_from_ping then .bind_group_ping else .bind_group_pong
      dispatch_x := DISPATCH_X
      dispatch_y := DISPATCH_Y }
  { read_from_ping := !st.read_from_ping
    passes := st.passes ++ [pass] }

/-- The recording loop of `run_bfs_tex_variant`, starting from
`read_from_ping = True`. -/
def texLoop (can_timestamp : Bool) (iterations : Nat) : TexLoopState :=
  (List.range iterations).foldl (texLoopStep can_timestamp) ⟨true, []⟩

/-- The pass that iteration `step` records (closed form, proved equal to
the fold below). -/
def passAt (can_timestamp : Bool) (step : Nat) : ComputePassRecord :=
  { timestamp_writes :=
      if can_timestamp then some ⟨2 * step, 2 * step + 1⟩ else none
    bind_group := if step % 2 = 0 then .bind_group_ping else .bind_group_pong
    dispatch_x := DISPATCH_X
    dispatch_y := DISPATCH_Y }

theorem bfsLoop_eq (can_timestamp : Bool) (iterations : Nat) :
    bfsLoop can_timestamp iterations =
      { read_from_ping := decide (iterations % 2 = 0)
        last_output := if iterations % 2 = 0 then .ping else .pong
        passes := (List.range iterations).map (passAt can_timestamp) } := by
  induction iterations with
  | zero => rfl
  | succ n ih =>
    have hstep : bfsLoop can_timestamp (n + 1) =
        bfsLoopStep can_timestamp (bfsLoop can_timestamp n) n := by
      unfold bfsLoop
      rw [List.range_succ, List.foldl_append]
      rfl
    rw [hstep, ih, List.range_succ, List.map_append]
    rcases Nat.even_or_odd n with he | ho
    · have h0 : n % 2 = 0 := Nat.even_iff.mp he
      have h1 : (n + 1) % 2 = 1 := by omega
      simp [bfsLoopStep, passAt, h0, h1]
    · have h0 : n % 2 = 1 := Nat.odd_iff.mp ho
      have h1 : (n + 1) % 2 = 0 := by omega
      simp [bfsLoopStep, passAt, h0, h1]

theorem texLoop_eq (can_timestamp : Bool) (iterations : Nat) :
    texLoop can_timestamp iterations =
      { read_from_ping := decide (iterations % 2 = 0)
        passes := (List.range iterations).map (passAt can_timestamp) } := by
  induction iterations with
  | zero => rfl
  | succ n ih =>
    have hstep : texLoop can_timestamp (n + 1) =
        texLoopStep can_timestamp (texLoop can_timestamp n) n := by
      unfold texLoop
      rw [List.range_succ, List.foldl_append]
      rfl
    rw [hstep, ih, List.range_succ, List.map_append]
    rcases Nat.even_or_odd n with he | ho
    · have h0 : n % 2 = 0 := Nat.even_iff.mp he
      have h1 : (n + 1) % 2 = 1 := by omega
      simp [texLoopStep, passAt, h0, h1]
    · have h0 : n % 2 = 1 := Nat.odd_iff.mp ho
      have h1 : (n + 1) % 2 = 0 := by omega
      simp [texLoopStep, passAt, h0, h1]

/-! ## Timestamp resolve layout and tick-to-time analysis -/

/-- The 2N resolve calls appended after the loop (lines 433-440): query `qi`
is resolved alone (count 1) into byte offset `qi * 256`. -/
def resolveOps (iterations : Nat) : List ResolveOp :=
  (List.range (2 * iterations)).map fun qi => ⟨qi, 1, qi * 256⟩

/-- Unsigned 64-bit subtraction, as numpy performs it on `uint64` operands:
the difference modulo `2^64`. -/
def u64sub (a b : Nat) : Nat := (2 ^ 64 + a - b) % 2 ^ 64

/-- Slot extraction `times = all_u64[::32]`: one u64 at the start of each 256-byte slot
(256 bytes / 8 bytes = 32 u64 per slot). -/
def slot_times (all_u64 : List Nat) : List Nat :=
  (List.range ((all_u64.length + 31) / 32)).map fun i => all_u64.getD (32 * i) 0

/-- Per-pass ticks `timestamp_ticks = times[1::2] - times[0:2*iterations:2]`: the per-pass
elapsed ticks, element `i` being the u64 difference of the end timestamp at
index `2*i+1` and the start timestamp at index `2*i`. -/
def timestamp_ticks_of (times : List Nat) (iterations : Nat) : List Nat :=
  (List.range iterations).map fun i =>
    u64sub (times.getD (2 * i + 1) 0) (times.getD (2 * i) 0)

/-- The `try: period_ns = device.queue.get_timestamp_period() except: 1.0`
block (lines 470-475): the queue-reported period when the call succeeds,
1.0 when it raises. -/
def period_ns_of (q : Except Unit ℚ) : ℚ :=
  match q with
  | .ok p => p
  | .error _ => 1

/-- Conversion `per_iter_ms = timestamp_ticks.astype(float64) * (period_ns / 1e6)`. -/
def per_iter_ms_of (ticks : List Nat) (period_ns : ℚ) : List ℚ :=
  ticks.map fun t : Nat => (t : ℚ) * (period_ns / 1000000)

/-- Filtering `nz = per_iter_ms[per_iter_ms > 0.0]`: the strictly positive durations. -/
def positive_durations (ms : List ℚ) : List ℚ :=
  ms.filter fun x => decide (0 < x)

/-- The printed per-iteration average: `nz.mean()` when `nz` is nonempty,
no mean otherwise (the code prints a literal 0 in that case). -/
def reported_mean_of (ms : List ℚ) : Option ℚ :=
  let nz := positive_durations ms
  if nz.length = 0 then none else some (nz.sum / (nz.length : ℚ))

/-- The printed total: `per_iter_ms.sum()` over all passes. -/
def reported_total_of (ms : List ℚ) : ℚ := ms.sum

/-! ## The two variant runners -/

/-- Everything `run_bfs_variant` / `run_bfs_tex_variant` produces that the
host can observe: the ordered event trace, the returned
`timestamp_ticks` (None without timestamp support), the resource read back
as the final distance field, the resolve buffer size, and the reported
statistics. -/
structure RunResult where
  events : List Event
  timestamp_ticks : Option (List Nat)
  last_output : Resource
  resolve_buffer_size : Option Nat
  reported_mean : Option ℚ
  reported_total : Option ℚ
deriving Repr

/-- Shallow embedding of `run_bfs_variant` (lines 352-493).  `raw_times` is
the content of the mapped timestamp read buffer as a list of u64 words
(device-provided input); `period_query` is the outcome of
`device.queue.get_timestamp_period()`. -/
def run_bfs_variant (can_timestamp : Bool) (iterations : Nat)
    (raw_times : List Nat) (period_query : Except Unit ℚ) : RunResult :=
  let st := bfsLoop can_timestamp iterations
  let preEvents : List Event :=
    [.createBindGroup .bind_group_ping, .createBindGroup .bind_group_pong]
      ++ st.passes.map Event.computePass
      ++ (if can_timestamp then (resolveOps iterations).map Event.resolveQuery
          else [])
      ++ [.submit, .waitDone]
  if can_timestamp then
    let resolve_buffer_size := 2 * iterations * 256
    let times := slot_times raw_times
    let ticks := timestamp_ticks_of times iterations
    let period_ns := period_ns_of period_query
    let ms := per_iter_ms_of ticks period_ns
    { events := preEvents
        ++ [.copyResolveToRead resolve_buffer_size, .submit, .waitDone,
            .mapRead, .unmapRead, .readback st.last_output]
      timestamp_ticks := some ticks
      last_output := st.last_output
      resolve_buffer_size := some resolve_buffer_size
      reported_mean := reported_mean_of ms
      reported_total := some (reported_total_of ms) }
  else
    { events := preEvents
        ++ [.printMsg "Timestamp queries not supported on this adapter.",
            .readback st.last_output]
      timestamp_ticks := none
      last_output := st.last_output
      resolve_buffer_size := none
      reported_mean := none
      reported_total := none }

/-- Selection `last_tex = dist_tex_pong if not read_from_ping else dist_tex_ping`
(line 616). -/
def texLastOutput (st : TexLoopState) : Resource :=
  if !st.read_from_ping then .pong else .ping

/-- Shallow embedding of `run_bfs_tex_variant` (lines 500-621). -/
def run_bfs_tex_variant (can_timestamp : Bool) (iterations : Nat)
    (raw_times : List Nat) (period_query : Except Unit ℚ) : RunResult :=
  let st := texLoop can_timestamp iterations
  let last_tex := texLastOutput st
  let preEvents : List Event :=
    [.createBindGroup .bind_group_ping, .createBindGroup .bind_group_pong]
      ++ st.passes.map Event.computePass
      ++ (if can_timestamp then (resolveOps iterations).map Event.resolveQuery
          else [])
      ++ [.submit, .waitDone]
  if can_timestamp then
    let resolve_buffer_size := 2 * iterations * 256
    let times := slot_times raw_times
    let ticks := timestamp_ticks_of times iterations
    let period_ns := period_ns_of period_query
    let ms := per_iter_ms_of ticks period_ns
    { events := preEvents
        ++ [.copyResolveToRead resolve_buffer_size, .submit, .waitDone,
            .mapRead, .unmapRead, .readback last_tex]
      timestamp_ticks := some ticks
      last_output := last_tex
      resolve_buffer_size := some resolve_buffer_size
      reported_mean := reported_mean_of ms
      reported_total := some (reported_total_of ms) }
  else
    { events := preEvents
        ++ [.printMsg "Timestamp queries not supported on this adapter.",
            .readback last_tex]
      timestamp_ticks := none
      last_output := last_tex
      resolve_buffer_size := none
      reported_mean := none
      reported_total := none }

/-! ## Distance-field seeding (`make_distance_buffers`,
`make_distance_texture_seed`) -/

/-- The seed array of `make_distance_buffers` for a grid of `numCells`
cells: `np.zeros(numCells)` followed by `seed[goalIndex] = 1.0`
(lines 208-209, with `numCells = NUM_CELLS`, `goalIndex = GOAL_INDEX`). -/
def mkDistanceSeed (numCells goalIndex : Nat) : List ℚ :=
  (List.replicate numCells (0 : ℚ)).set goalIndex 1

/-- Embedding of `make_distance_buffers` (lines 206-225): one seed array, ping and pong
buffers both created from that same array.  The triple is
(distance_seed, ping contents, pong contents). -/
def make_distance_buffers : List ℚ × List ℚ × List ℚ :=
  let distance_seed := mkDistanceSeed NUM_CELLS GOAL_INDEX
  (distance_seed, distance_seed, distance_seed)

/-- The 2D seed of `make_distance_texture_seed` for a `size × size` grid
with goal `(gx, gy)`: `np.zeros((size, size))` followed by
`distance_seed[goal[1], goal[0]] = 1.0`; cell `(y, x)` of the texture. -/
def mkDistanceTextureSeed (goal : Nat × Nat) (y x : Nat) : ℚ :=
  if y = goal.2 ∧ x = goal.1 then 1 else 0

/-- Embedding of `make_distance_texture_seed` (lines 140-174): texture contents after
the seed upload, as a function of texel coordinates `(y, x)`. -/
def make_distance_texture_seed : Nat → Nat → ℚ :=
  mkDistanceTextureSeed GOAL

/-! ## Readback (`read_distance_buffer`, `read_distance_texture`) -/

/-- Host-side steps of a readback operation, in program order. -/
inductive RbEvent
  | createStaging
  | copyCommand
  | submit
  | mapSync
  | readMapped
  | copyBytes
  | unmap
deriving DecidableEq, Repr

/-- Shallow embedding of `read_distance_buffer` (lines 228-245), with the
host copy step `np.frombuffer(data, dtype=np.float32).copy()` modelled as
fallible (parameter `copy_step`).  The source is straight-line code with no
exception handler: when the copy step raises, execution leaves the function
right there, so no later step runs.  Returns the steps executed, in order,
and the outcome. -/
def read_distance_buffer (copy_step : Except Unit (List ℚ)) :
    List RbEvent × Except Unit (List ℚ) :=
  let pre : List RbEvent :=
    [.createStaging, .copyCommand, .submit, .mapSync, .readMapped]
  match copy_step with
  | .error e => (pre, .error e)
  | .ok arr => (pre ++ [.copyBytes, .unmap], .ok arr)

/-- Shallow embedding of `read_distance_texture` (lines 176-203): same
straight-line shape, with the device copy being texture-to-buffer. -/
def read_distance_texture (copy_step : Except Unit (List ℚ)) :
    List RbEvent × Except Unit (List ℚ) :=
  let pre : List RbEvent :=
    [.createStaging, .copyCommand, .submit, .mapSync, .readMapped]
  match copy_step with
  | .error e => (pre, .error e)
  | .ok arr => (pre ++ [.copyBytes, .unmap], .ok arr)

/-! ## Variant records and the dispatch loop -/

/-- Substring containment, as the Python `in` operator on strings. -/
def strContains (hay needle : String) : Bool :=
  (List.range (hay.toList.length + 1)).any fun i =>
    needle.toList.isPrefixOf (hay.toList.drop i)

/-- The two binding schemes of the spec. -/
inductive BindingScheme
  | bufferBased
  | textureBased
deriving DecidableEq, Repr

/-- Modelled from the spec: the `binding_scheme` field of a variant
configuration record is not a separate field in the source; the source
encodes the scheme in the kernel path (directory `StorageTextureBased`
versus `StorageBufferBased`). -/
def binding_scheme_of (shader_path : String) : BindingScheme :=
  if strContains shader_path "StorageTextureBased" then .textureBased
  else .bufferBased

/-- Which runner the dispatch loop picks. -/
inductive Runner
  | runTex
  | runBuffer
deriving DecidableEq, Repr

/-- The active `variants` list (lines 674-679), with `i = 370`. -/
def variants : List (String × String × Nat) :=
  [("BFS tiled 8x8",
    "../Production-shaders/8x8/StorageBufferBased/BFS-tiled-8x8.wgsl", 370),
   ("BFS tiled + library 8x8",
    "../Production-shaders/8x8/StorageBufferBased/BFS-tiled-library-8x8.wgsl",
    370),
   ("BFS tex tiled 8x8",
    "../Production-shaders/8x8/StorageTextureBased/BFS-tex-tiled-8x8.wgsl",
    370),
   ("BFS tex tiled + library 8x8",
    "../Production-shaders/8x8/StorageTextureBased/BFS-tex-tiled-library-8x8.wgsl",
    370)]

/-- The runner selection of the loop at lines 682-686:
`run_bfs_tex_variant` if the string "tex" occurs in the record name, else
`run_bfs_variant`. -/
def selectRunner (v : String × String × Nat) : Runner :=
  if strContains v.1 "tex" then .runTex else .runBuffer

/-- One `results[name] = ...` assignment with Python dict semantics:
overwrite an existing key, else append in insertion order. -/
def dictInsert (d : List (String × Runner)) (k : String) (v : Runner) :
    List (String × Runner) :=
  if d.any (fun kv => kv.1 == k) then
    d.map fun kv => if kv.1 == k then (k, v) else kv
  else d ++ [(k, v)]

/-- The `results` dict at the end of the sweep (lines 681-687), recording
for each name which runner produced its entry. -/
def results : List (String × Runner) :=
  variants.foldl (fun acc v => dictInsert acc v.1 (selectRunner v)) []

/-! ## Derived views of a run used by the claims -/

/-- Project a compute-pass event, if any. -/
def extractPass : Event → Option ComputePassRecord
  | .computePass p => some p
  | _ => none

/-- Project a resolve event, if any. -/
def extractResolve : Event → Option ResolveOp
  | .resolveQuery r => some r
  | _ => none

/-- The compute passes of a run, in recorded order. -/
def recordedPasses (res : RunResult) : List ComputePassRecord :=
  res.events.filterMap extractPass

/-- The resolve operations of a run, in recorded order. -/
def recordedResolves (res : RunResult) : List ResolveOp :=
  res.events.filterMap extractResolve

/-- Whether an event creates a bind group. -/
def Event.isCreateBindGroup : Event → Bool
  | .createBindGroup _ => true
  | _ => false

/-- The query indices a pass descriptor writes (zero or two of them). -/
def timestampWriteIndices (p : ComputePassRecord) : List Nat :=
  match p.timestamp_writes with
  | none => []
  | some tw => [tw.beginning_of_pass_write_index, tw.end_of_pass_write_index]

/-- Whether the fallible host copy step of a readback succeeded. -/
def copyStepOk : Except Unit (List ℚ) → Bool
  | .ok _ => true
  | .error _ => false

theorem filterMap_extractPass_passes {α : Type} (f : α → ComputePassRecord)
    (l : List α) :
    l.filterMap (extractPass ∘ Event.computePass ∘ f) = l.map f := by
  induction l with
  | nil => rfl
  | cons p t ih => simp [extractPass, ih, Function.comp]

theorem filterMap_extractPass_resolves (l : List ResolveOp) :
    l.filterMap (extractPass ∘ Event.resolveQuery) = [] := by
  induction l with
  | nil => rfl
  | cons p t ih => simp [extractPass, ih, Function.comp]

theorem filterMap_extractResolve_passes {α : Type}
    (f : α → ComputePassRecord) (l : List α) :
    l.filterMap (extractResolve ∘ Event.computePass ∘ f) = [] := by
  induction l with
  | nil => rfl
  | cons p t ih => simp [extractResolve, ih, Function.comp]

theorem filterMap_extractResolve_resolves (l : List ResolveOp) :
    l.filterMap (extractResolve ∘ Event.resolveQuery) = l := by
  induction l with
  | nil => rfl
  | cons p t ih => simp [extractResolve, ih, Function.comp]

theorem recordedPasses_run_bfs_variant (ct : Bool) (N : Nat)
    (raw : List Nat) (q : Except Unit ℚ) :
    recordedPasses (run_bfs_variant ct N raw q) =
      (List.range N).map (passAt ct) := by
  cases ct <;>
    simp [recordedPasses, run_bfs_variant, bfsLoop_eq, extractPass,
      List.filterMap_append, filterMap_extractPass_passes,
      filterMap_extractPass_resolves]

theorem recordedPasses_run_bfs_tex_variant (ct : Bool) (N : Nat)
    (raw : List Nat) (q : Except Unit ℚ) :
    recordedPasses (run_bfs_tex_variant ct N raw q) =
      (List.range N).map (passAt ct) := by
  cases ct <;>
    simp [recordedPasses, run_bfs_tex_variant, texLoop_eq, extractPass,
      List.filterMap_append, filterMap_extractPass_passes,
      filterMap_extractPass_resolves]

theorem recordedResolves_run_bfs_variant (N : Nat)
    (raw : List Nat) (q : Except Unit ℚ) :
    recordedResolves (run_bfs_variant true N raw q) = resolveOps N := by
  simp [recordedResolves, run_bfs_variant, bfsLoop_eq, extractResolve,
    List.filterMap_append, filterMap_extractResolve_passes,
    filterMap_extractResolve_resolves]

theorem recordedResolves_run_bfs_tex_variant (N : Nat)
    (raw : List Nat) (q : Except Unit ℚ) :
    recordedResolves (run_bfs_tex_variant true N raw q) = resolveOps N := by
  simp [recordedResolves, run_bfs_tex_variant, texLoop_eq, extractResolve,
    List.filterMap_append, filterMap_extractResolve_passes,
    filterMap_extractResolve_resolves]

/-- The begin/end query indices of the N instrumented passes, flattened,
are exactly `0, 1, ..., 2N-1`. -/
theorem flatten_timestampWriteIndices (N : Nat) :
    (((List.range N).map (passAt true)).map timestampWriteIndices).flatten
      = List.range (2 * N) := by
  induction N with
  | zero => rfl
  | succ n ih =>
    rw [List.range_succ, List.map_append, List.map_append,
      List.flatten_append, ih]
    have h2 : 2 * (n + 1) = (2 * n + 1) + 1 := by omega
    rw [h2, List.range_succ, show 2 * n + 1 = (2 * n) + 1 from rfl,
      List.range_succ]
    simp [passAt, timestampWriteIndices]

/-! ## Seeding lemmas -/

theorem goal_index_lt {S gx gy : Nat} (hx : gx < S) (hy : gy < S) :
    gy * S + gx < S * S :=
  calc gy * S + gx < gy * S + S := by omega
    _ = (gy + 1) * S := by ring
    _ ≤ S * S := Nat.mul_le_mul_right S (Nat.succ_le_of_lt hy)

/-- Row-major flattening is injective on in-range columns. -/
theorem flat_index_inj {S y x gy gx : Nat} (hx : x < S) (hgx : gx < S) :
    y * S + x = gy * S + gx ↔ y = gy ∧ x = gx := by
  constructor
  · intro h
    have hS : 0 < S := by omega
    have hx' : (y * S + x) % S = x := by
      rw [Nat.mul_comm y S, Nat.mul_add_mod, Nat.mod_eq_of_lt hx]
    have hgx' : (gy * S + gx) % S = gx := by
      rw [Nat.mul_comm gy S, Nat.mul_add_mod, Nat.mod_eq_of_lt hgx]
    have hxg : x = gx := by rw [← hx', ← hgx', h]
    refine ⟨?_, hxg⟩
    have hyS : y * S = gy * S := by omega
    exact Nat.eq_of_mul_eq_mul_right hS hyS
  · rintro ⟨rfl, rfl⟩
    rfl

theorem mkDistanceSeed_length (n g : Nat) :
    (mkDistanceSeed n g).length = n := by
  simp [mkDistanceSeed]

theorem mkDistanceSeed_getD_goal {n g : Nat} (h : g < n) :
    (mkDistanceSeed n g).getD g 0 = 1 := by
  have hlen : g < (List.replicate n (0 : ℚ)).length := by simpa using h
  rw [mkDistanceSeed, List.getD_eq_getElem?_getD,
    List.getElem?_set_self hlen]
  rfl

theorem mkDistanceSeed_getD_ne {n g i : Nat} (h : i ≠ g) :
    (mkDistanceSeed n g).getD i 0 = 0 := by
  simp only [mkDistanceSeed, List.getD_eq_getElem?_getD,
    List.getElem?_set_ne (Ne.symm h), List.getElem?_replicate]
  split <;> rfl

/-- Explicit shape of the seed array: `g` zeros, the single 1, then zeros. -/
theorem mkDistanceSeed_eq_append {n g : Nat} (h : g < n) :
    mkDistanceSeed n g =
      List.replicate g (0 : ℚ) ++ 1 :: List.replicate (n - g - 1) 0 := by
  unfold mkDistanceSeed
  induction g generalizing n with
  | zero =>
    cases n with
    | zero => omega
    | succ m => simp [List.replicate_succ]
  | succ g ih =>
    cases n with
    | zero => omega
    | succ m =>
      have hm : g < m := by omega
      have harith : m + 1 - (g + 1) - 1 = m - g - 1 := by omega
      calc (List.replicate (m + 1) (0 : ℚ)).set (g + 1) 1
          = (0 : ℚ) :: (List.replicate m (0 : ℚ)).set g 1 := by
            simp [List.replicate_succ]
        _ = (0 : ℚ) :: (List.replicate g (0 : ℚ)
              ++ 1 :: List.replicate (m - g - 1) 0) := by rw [ih hm]
        _ = List.replicate (g + 1) (0 : ℚ)
              ++ 1 :: List.replicate (m + 1 - (g + 1) - 1) 0 := by
            rw [harith]
            simp [List.replicate_succ]

/-- The seed array holds exactly one non-zero entry. -/
theorem mkDistanceSeed_one_nonzero {n g : Nat} (h : g < n) :
    ((mkDistanceSeed n g).filter fun v => decide (v ≠ 0)).length = 1 := by
  rw [mkDistanceSeed_eq_append h]
  rw [List.filter_append]
  rw [List.filter_replicate]
  simp [List.filter_replicate]

/-! ## The claims -/

/-- C1: For every iteration count N >= 0, the resource read back as the
authoritative final distance field is the ping resource when N is even and
the pong resource when N is odd, in both the buffer-based and the
texture-based runner. -/
theorem c1_authoritative_output_selection (ct : Bool) (N : Nat)
    (raw : List Nat) (q : Except Unit ℚ) :
    ((run_bfs_variant ct N raw q).last_output
        = if N % 2 = 0 then Resource.ping else Resource.pong)
    ∧ ((run_bfs_tex_variant ct N raw q).last_output
        = if N % 2 = 0 then Resource.ping else Resource.pong)
    ∧ Event.readback (if N % 2 = 0 then Resource.ping else Resource.pong)
        ∈ (run_bfs_variant ct N raw q).events
    ∧ Event.readback (if N % 2 = 0 then Resource.ping else Resource.pong)
        ∈ (run_bfs_tex_variant ct N raw q).events := by
  rcases Nat.even_or_odd N with he | ho
  · have h0 : N % 2 = 0 := Nat.even_iff.mp he
    cases ct <;>
      simp [run_bfs_variant, run_bfs_tex_variant, bfsLoop_eq, texLoop_eq,
        texLastOutput, h0]
  · have h0 : N % 2 = 1 := Nat.odd_iff.mp ho
    cases ct <;>
      simp [run_bfs_variant, run_bfs_tex_variant, bfsLoop_eq, texLoop_eq,
        texLastOutput, h0]

/-- C2: For every pass index i in [0, N), the recorded compute pass i uses
the precomputed binding set BindingsA (read ping, write pong) when i is
even and BindingsB (read pong, write ping) when i is odd; both binding
sets are built before the loop and no binding object is created inside the
timed loop. -/
theorem c2_precomputed_binding_alternation (ct : Bool) (N : Nat)
    (raw : List Nat) (q : Except Unit ℚ) :
    recordedPasses (run_bfs_variant ct N raw q) =
        (List.range N).map (passAt ct)
    ∧ recordedPasses (run_bfs_tex_variant ct N raw q) =
        (List.range N).map (passAt ct)
    ∧ (∀ i : Nat, (passAt ct i).bind_group =
        if i % 2 = 0 then BindGroup.bind_group_ping
        else BindGroup.bind_group_pong)
    ∧ bindGroupSlots BindGroup.bind_group_ping = (Resource.ping, Resource.pong)
    ∧ bindGroupSlots BindGroup.bind_group_pong = (Resource.pong, Resource.ping)
    ∧ (run_bfs_variant ct N raw q).events.take 2 =
        [Event.createBindGroup BindGroup.bind_group_ping,
         Event.createBindGroup BindGroup.bind_group_pong]
    ∧ (((run_bfs_variant ct N raw q).events.drop 2).all
        fun e => ! e.isCreateBindGroup) = true
    ∧ (run_bfs_tex_variant ct N raw q).events.take 2 =
        [Event.createBindGroup BindGroup.bind_group_ping,
         Event.createBindGroup BindGroup.bind_group_pong]
    ∧ (((run_bfs_tex_variant ct N raw q).events.drop 2).all
        fun e => ! e.isCreateBindGroup) = true := by
  refine ⟨recordedPasses_run_bfs_variant ct N raw q,
    recordedPasses_run_bfs_tex_variant ct N raw q,
    fun i => rfl, rfl, rfl, ?_, ?_, ?_, ?_⟩ <;>
  cases ct <;>
    simp [run_bfs_variant, run_bfs_tex_variant, bfsLoop_eq, texLoop_eq,
      texLastOutput, Event.isCreateBindGroup, List.all_eq_true,
      Function.comp]

/-- C3: When timestamp queries are enabled, for iteration count N the
harness issues exactly 2N timestamp writes — pass i is wrapped with a
begin-of-pass write at query index 2i and an end-of-pass write at 2i+1 —
and appends exactly 2N resolve operations, where query i is resolved to
byte offset 256·i of a resolve buffer of size 2N·256 bytes. -/
theorem c3_timestamp_resolve_layout (N : Nat) (raw : List Nat)
    (q : Except Unit ℚ) :
    recordedPasses (run_bfs_variant true N raw q) =
        (List.range N).map (passAt true)
    ∧ recordedPasses (run_bfs_tex_variant true N raw q) =
        (List.range N).map (passAt true)
    ∧ (∀ i : Nat, (passAt true i).timestamp_writes = some ⟨2 * i, 2 * i + 1⟩)
    ∧ (((List.range N).map (passAt true)).map timestampWriteIndices).flatten
        = List.range (2 * N)
    ∧ ((((List.range N).map (passAt true)).map
        timestampWriteIndices).flatten).length = 2 * N
    ∧ recordedResolves (run_bfs_variant true N raw q) = resolveOps N
    ∧ recordedResolves (run_bfs_tex_variant true N raw q) = resolveOps N
    ∧ resolveOps N = (List.range (2 * N)).map (fun qi => ⟨qi, 1, 256 * qi⟩)
    ∧ (resolveOps N).length = 2 * N
    ∧ (run_bfs_variant true N raw q).resolve_buffer_size =
        some (2 * N * 256)
    ∧ (run_bfs_tex_variant true N raw q).resolve_buffer_size =
        some (2 * N * 256) := by
  refine ⟨recordedPasses_run_bfs_variant true N raw q,
    recordedPasses_run_bfs_tex_variant true N raw q,
    fun i => rfl,
    flatten_timestampWriteIndices N,
    by rw [flatten_timestampWriteIndices N, List.length_range],
    recordedResolves_run_bfs_variant N raw q,
    recordedResolves_run_bfs_tex_variant N raw q,
    ?_, by simp [resolveOps], ?_, ?_⟩
  · unfold resolveOps
    congr 1
    funext qi
    simp [Nat.mul_comm]
  · simp [run_bfs_variant, bfsLoop_eq]
  · simp [run_bfs_tex_variant, texLoop_eq]

/-- C9: When the adapter does not advertise timestamp-query support, each
variant run still completes without error: all N passes are recorded and
submitted uninstrumented, the final distance field is read back and
returned, the returned timing sequence is None, and a human-readable
message reports that timing is unavailable. -/
theorem c9_graceful_degrade_without_timestamps (N : Nat) (raw : List Nat)
    (q : Except Unit ℚ) :
    recordedPasses (run_bfs_variant false N raw q) =
        (List.range N).map (passAt false)
    ∧ recordedPasses (run_bfs_tex_variant false N raw q) =
        (List.range N).map (passAt false)
    ∧ ((List.range N).map (passAt false)).length = N
    ∧ (((List.range N).map (passAt false)).all
        fun p => p.timestamp_writes == none) = true
    ∧ Event.submit ∈ (run_bfs_variant false N raw q).events
    ∧ Event.submit ∈ (run_bfs_tex_variant false N raw q).events
    ∧ (run_bfs_variant false N raw q).timestamp_ticks = none
    ∧ (run_bfs_tex_variant false N raw q).timestamp_ticks = none
    ∧ Event.printMsg "Timestamp queries not supported on this adapter."
        ∈ (run_bfs_variant false N raw q).events
    ∧ Event.printMsg "Timestamp queries not supported on this adapter."
        ∈ (run_bfs_tex_variant false N raw q).events
    ∧ Event.readback ((run_bfs_variant false N raw q).last_output)
        ∈ (run_bfs_variant false N raw q).events
    ∧ Event.readback ((run_bfs_tex_variant false N raw q).last_output)
        ∈ (run_bfs_tex_variant false N raw q).events := by
  refine ⟨recordedPasses_run_bfs_variant false N raw q,
    recordedPasses_run_bfs_tex_variant false N raw q,
    by simp, ?_, ?_, ?_, ?_, ?_, ?_, ?_, ?_, ?_⟩ <;>
    simp [run_bfs_variant, run_bfs_tex_variant, bfsLoop_eq, texLoop_eq,
      texLastOutput, passAt, List.all_eq_true]

theorem positive_durations_filter_ne (ms : List ℚ) :
    positive_durations (ms.filter fun x => decide (x ≠ 0)) =
      positive_durations ms := by
  unfold positive_durations
  rw [List.filter_filter]
  apply List.filter_congr
  intro x _
  by_cases h : 0 < x
  · simp [h, ne_of_gt h]
  · simp [h]

/-- C4: Immediately after provisioning, each of the ping and pong distance
fields (in both buffer and texture form) contains exactly one non-zero
cell, located at the goal cell, with value 1.0; every other cell of the
S×S grid is 0.0, and ping and pong are seeded identically. -/
theorem c4_seed_exactly_one_nonzero (S gx gy : Nat)
    (hx : gx < S) (hy : gy < S) :
    ((mkDistanceSeed (S * S) (gy * S + gx)).getD (gy * S + gx) 0 = 1)
    ∧ (∀ i, i < S * S → i ≠ gy * S + gx →
        (mkDistanceSeed (S * S) (gy * S + gx)).getD i 0 = 0)
    ∧ (((mkDistanceSeed (S * S) (gy * S + gx)).filter
        fun v => decide (v ≠ 0)).length = 1)
    ∧ (∀ y x, y < S → x < S →
        mkDistanceTextureSeed (gx, gy) y x =
          (mkDistanceSeed (S * S) (gy * S + gx)).getD (y * S + x) 0)
    ∧ mkDistanceTextureSeed (gx, gy) gy gx = 1
    ∧ (∀ y x, mkDistanceTextureSeed (gx, gy) y x ≠ 0 ↔ y = gy ∧ x = gx)
    ∧ make_distance_buffers.2.1 = make_distance_buffers.2.2
    ∧ make_distance_buffers.1 = make_distance_buffers.2.1
    ∧ make_distance_texture_seed = mkDistanceTextureSeed GOAL := by
  have hgi : gy * S + gx < S * S := goal_index_lt hx hy
  refine ⟨mkDistanceSeed_getD_goal hgi,
    fun i _ hne => mkDistanceSeed_getD_ne hne,
    mkDistanceSeed_one_nonzero hgi, ?_, by simp [mkDistanceTextureSeed],
    ?_, rfl, rfl, rfl⟩
  · intro y x hyS hxS
    by_cases h : y = gy ∧ x = gx
    · rcases h with ⟨rfl, rfl⟩
      rw [mkDistanceSeed_getD_goal hgi]
      simp [mkDistanceTextureSeed]
    · have hne : y * S + x ≠ gy * S + gx := fun hcontra =>
        h ((flat_index_inj hxS hx).mp hcontra)
      rw [mkDistanceSeed_getD_ne hne]
      simp [mkDistanceTextureSeed]
      intro h1 h2
      exact h ⟨h1, h2⟩
  · intro y x
    by_cases h : y = gy ∧ x = gx
    · rcases h with ⟨rfl, rfl⟩
      simp [mkDistanceTextureSeed]
    · simp only [mkDistanceTextureSeed, if_neg h]
      simp [h]

theorem c4_seed_exactly_one_nonzero_witness :
    (1 < 4 ∧ 2 < 4)
    ∧ (((mkDistanceSeed (4 * 4) (2 * 4 + 1)).getD (2 * 4 + 1) 0 = 1)
      ∧ (∀ i, i < 4 * 4 → i ≠ 2 * 4 + 1 →
          (mkDistanceSeed (4 * 4) (2 * 4 + 1)).getD i 0 = 0)
      ∧ (((mkDistanceSeed (4 * 4) (2 * 4 + 1)).filter
          fun v => decide (v ≠ 0)).length = 1)
      ∧ (∀ y x, y < 4 → x < 4 →
          mkDistanceTextureSeed (1, 2) y x =
            (mkDistanceSeed (4 * 4) (2 * 4 + 1)).getD (y * 4 + x) 0)
      ∧ mkDistanceTextureSeed (1, 2) 2 1 = 1
      ∧ (∀ y x, mkDistanceTextureSeed (1, 2) y x ≠ 0 ↔ y = 2 ∧ x = 1)
      ∧ make_distance_buffers.2.1 = make_distance_buffers.2.2
      ∧ make_distance_buffers.1 = make_distance_buffers.2.1
      ∧ make_distance_texture_seed = mkDistanceTextureSeed GOAL) :=
  ⟨by decide, c4_seed_exactly_one_nonzero 4 1 2 (by decide) (by decide)⟩

/-- C5: The reported per-iteration mean is the arithmetic mean of only the
strictly positive per-pass durations (durations of exactly zero are
excluded from the mean), while the reported total is the sum of all N
per-pass durations including the zero ones. -/
theorem c5_mean_of_positives_total_of_all (ms : List ℚ) (ticks : List Nat)
    (p : ℚ) (N : Nat) (raw : List Nat) (q : Except Unit ℚ) :
    reported_mean_of ms =
        reported_mean_of (ms.filter fun x => decide (x ≠ 0))
    ∧ ((reported_mean_of ms).getD 0) * ((positive_durations ms).length : ℚ)
        = (positive_durations ms).sum
    ∧ reported_total_of ms = ms.sum
    ∧ (per_iter_ms_of ticks p).length = ticks.length
    ∧ (timestamp_ticks_of (slot_times raw) N).length = N
    ∧ (run_bfs_variant true N raw q).reported_mean =
        reported_mean_of (per_iter_ms_of
          (timestamp_ticks_of (slot_times raw) N) (period_ns_of q))
    ∧ (run_bfs_variant true N raw q).reported_total =
        some (reported_total_of (per_iter_ms_of
          (timestamp_ticks_of (slot_times raw) N) (period_ns_of q)))
    ∧ (run_bfs_tex_variant true N raw q).reported_mean =
        reported_mean_of (per_iter_ms_of
          (timestamp_ticks_of (slot_times raw) N) (period_ns_of q))
    ∧ (run_bfs_tex_variant true N raw q).reported_total =
        some (reported_total_of (per_iter_ms_of
          (timestamp_ticks_of (slot_times raw) N) (period_ns_of q))) := by
  refine ⟨?_, ?_, rfl, by simp only [per_iter_ms_of, List.length_map],
    by simp only [timestamp_ticks_of, List.length_map, List.length_range],
    rfl, rfl, rfl, rfl⟩
  · have hpd := positive_durations_filter_ne ms
    simp only [reported_mean_of, hpd]
  · unfold reported_mean_of
    by_cases h : (positive_durations ms).length = 0
    · have hnil : positive_durations ms = [] := List.length_eq_zero.mp h
      simp [h, hnil]
    · simp only [h, if_neg h, Option.getD_some]
      have hne : ((positive_durations ms).length : ℚ) ≠ 0 :=
        Nat.cast_ne_zero.mpr h
      field_simp

/-- C8: Tick-to-time conversion uses the queue-reported nanoseconds-per-tick
period when the query for it succeeds; when obtaining the period raises,
the analyzer falls back to a period of 1.0, i.e. treats the resolved
64-bit values as if they were already nanoseconds, and still reports
statistics rather than failing. -/
theorem c8_period_query_fallback (ticks : List Nat) (p : ℚ) (N : Nat)
    (raw : List Nat) :
    period_ns_of (Except.ok p) = p
    ∧ period_ns_of (Except.error ()) = 1
    ∧ per_iter_ms_of ticks (period_ns_of (Except.ok p)) =
        ticks.map (fun t : Nat => (t : ℚ) * (p / 1000000))
    ∧ per_iter_ms_of ticks (period_ns_of (Except.error ())) =
        ticks.map (fun t : Nat => (t : ℚ) * (1 / 1000000))
    ∧ (run_bfs_variant true N raw (Except.error ())).reported_total =
        some (reported_total_of (per_iter_ms_of
          (timestamp_ticks_of (slot_times raw) N) 1))
    ∧ ((run_bfs_variant true N raw (Except.error ())).reported_total).isSome
        = true
    ∧ ((run_bfs_tex_variant true N raw (Except.error ())).reported_total).isSome
        = true := by
  exact ⟨rfl, rfl, rfl, rfl, rfl, rfl, rfl⟩

/-- C10: Per-pass elapsed ticks are computed by unsigned 64-bit subtraction
of the start timestamp from the end timestamp; for any pass whose end tick
is numerically smaller than its start tick, the reported tick count is the
difference modulo 2^64 (a large positive value), never a negative number
and never an error. -/
theorem c10_unsigned_tick_subtraction (times : List Nat) (N : Nat)
    (s e : Nat) (hs : s < 2 ^ 64) (he : e < 2 ^ 64) :
    timestamp_ticks_of times N =
        (List.range N).map (fun i =>
          u64sub (times.getD (2 * i + 1) 0) (times.getD (2 * i) 0))
    ∧ u64sub e s = (2 ^ 64 + e - s) % 2 ^ 64
    ∧ ((u64sub e s : Int)) = ((e : Int) - (s : Int)) % 2 ^ 64
    ∧ (0 : Int) ≤ ((u64sub e s : Int))
    ∧ (e < s → u64sub e s = e + 2 ^ 64 - s ∧ 0 < u64sub e s) := by
  have h64 : (2 : Nat) ^ 64 = 18446744073709551616 := by norm_num
  refine ⟨rfl, rfl, ?_, by positivity, ?_⟩
  · unfold u64sub
    omega
  · intro hlt
    unfold u64sub
    constructor
    · have hlt' : 2 ^ 64 + e - s < 2 ^ 64 := by omega
      rw [Nat.mod_eq_of_lt hlt']
      omega
    · have hlt' : 2 ^ 64 + e - s < 2 ^ 64 := by omega
      rw [Nat.mod_eq_of_lt hlt']
      omega

theorem c10_unsigned_tick_subtraction_witness :
    ((5 : Nat) < 2 ^ 64 ∧ (3 : Nat) < 2 ^ 64)
    ∧ (timestamp_ticks_of [5, 3] 1 =
        (List.range 1).map (fun i =>
          u64sub ([5, 3].getD (2 * i + 1) 0) ([5, 3].getD (2 * i) 0))
      ∧ u64sub 3 5 = (2 ^ 64 + 3 - 5) % 2 ^ 64
      ∧ ((u64sub 3 5 : Int)) = ((3 : Int) - (5 : Int)) % 2 ^ 64
      ∧ (0 : Int) ≤ ((u64sub 3 5 : Int))
      ∧ (3 < 5 → u64sub 3 5 = 3 + 2 ^ 64 - 5 ∧ 0 < u64sub 3 5)) :=
  ⟨⟨by norm_num, by norm_num⟩,
    c10_unsigned_tick_subtraction [5, 3] 1 5 3 (by norm_num) (by norm_num)⟩

/-- C6 counterexample: in both readback operations, when copying the mapped
bytes into the host-owned array fails after the mapping has been acquired,
the mapping is NOT released — the straight-line source has no handler, so
the unmap step never runs on that exit path. -/
theorem c6_counterexample_unmap_skipped :
    (read_distance_buffer (Except.error ())).2 = Except.error ()
    ∧ RbEvent.mapSync ∈ (read_distance_buffer (Except.error ())).1
    ∧ RbEvent.unmap ∉ (read_distance_buffer (Except.error ())).1
    ∧ RbEvent.mapSync ∈ (read_distance_texture (Except.error ())).1
    ∧ RbEvent.unmap ∉ (read_distance_texture (Except.error ())).1 := by
  refine ⟨rfl, ?_, ?_, ?_, ?_⟩ <;> decide

/-- C6 amended: each readback operation acquires the mapping and releases
it on the normal exit path; the mapping is released exactly when the host
copy step succeeds, so a failure of the copy after the mapping is acquired
propagates with the mapping still held. -/
theorem c6_amended_mapping_release (c : Except Unit (List ℚ)) :
    ((read_distance_buffer c).1.contains RbEvent.unmap = copyStepOk c)
    ∧ ((read_distance_texture c).1.contains RbEvent.unmap = copyStepOk c)
    ∧ ((read_distance_buffer c).1.contains RbEvent.mapSync = true)
    ∧ ((read_distance_texture c).1.contains RbEvent.mapSync = true)
    ∧ (read_distance_buffer c).2 = c
    ∧ (read_distance_texture c).2 = c := by
  cases c <;> exact ⟨rfl, rfl, rfl, rfl, rfl, rfl⟩

/-- C7: For every variant configuration record, the harness selects the
texture-based runner if and only if the record's binding_scheme field is
TextureBased (and the buffer-based runner if and only if it is
BufferBased), and produces exactly one result per record. -/
theorem c7_variant_dispatch_one_result_each :
    (variants.all fun v =>
      ((selectRunner v == Runner.runTex)
          == (binding_scheme_of v.2.1 == BindingScheme.textureBased))
        && ((selectRunner v == Runner.runBuffer)
          == (binding_scheme_of v.2.1 == BindingScheme.bufferBased))) = true
    ∧ results.length = variants.length
    ∧ (variants.all fun v =>
        (results.filter fun kv => kv.1 == v.1).length == 1) = true
    ∧ (variants.all fun v =>
        results.contains (v.1, selectRunner v)) = true := by
  refine ⟨?_, ?_, ?_, ?_⟩ <;> decide

end BfsProfiler
